import Mathlib

/-!
# LGNS calculator: market-data gateway and projection engine

A shallow embedding of the price-acquisition layer (`fetchCurrentPrice`,
`fetchHistoricalData` in `src/services/api.ts` and `src/unnamed/part_000`)
and of the compounding-projection engine (the `results` / `summary` memos in
`src/App.tsx` and `src/unnamed/part_001`).

JavaScript numbers that can be `NaN` are modelled as `Option ℚ` with `none`
standing for `NaN`; JSON values are a plain inductive; `undefined` is the
`none` of `Option JVal`.  Code that can throw is modelled in `Except Unit`,
and the `try/catch` wrappers of the source become `catchWith`.
-/

/-- A JSON value, as produced by `response.json()`. -/
inductive JVal where
  | null
  | bool (b : Bool)
  | num (q : ℚ)
  | str (s : String)
  | arr (elems : List JVal)
  | obj (fields : List (String × JVal))

/-- Numeric value of a run of decimal digits. -/
def digitsVal (ds : List Char) : ℕ :=
  ds.foldl (fun a c => 10 * a + (c.toNat - 48)) 0

/-- Parse a decimal literal `digits [. digits] [(e|E) [sign] digits]` from the
front of `cs`, returning the value and the unconsumed suffix, or `none` when
no digit occurs before the exponent.  This models the numeric grammar of the
JavaScript `parseFloat` / `Number` builtins (the hexadecimal and `Infinity`
forms, which never occur in these payloads, are not modelled). -/
def parseDecimal (cs : List Char) : Option (ℚ × List Char) :=
  let intPart := cs.takeWhile Char.isDigit
  let rest := cs.drop intPart.length
  let fracPart := match rest with
    | '.' :: r => r.takeWhile Char.isDigit
    | _ => []
  let rest2 := match rest with
    | '.' :: r => r.drop (r.takeWhile Char.isDigit).length
    | _ => rest
  if intPart.isEmpty && fracPart.isEmpty then none
  else
    let mant : ℚ := (digitsVal intPart : ℚ) + (digitsVal fracPart : ℚ) / (10 : ℚ) ^ fracPart.length
    match rest2 with
    | 'e' :: r | 'E' :: r =>
      let neg : Bool := match r with
        | '-' :: _ => true
        | _ => false
      let r2 := match r with
        | '-' :: t => t
        | '+' :: t => t
        | _ => r
      let expDigits := r2.takeWhile Char.isDigit
      if expDigits.isEmpty then some (mant, rest2)
      else
        let e : ℚ := (10 : ℚ) ^ digitsVal expDigits
        some (if neg then mant / e else mant * e, r2.drop expDigits.length)
    | _ => some (mant, rest2)

/-- Parse an optionally signed decimal literal from the front of `cs`. -/
def parseSigned (cs : List Char) : Option (ℚ × List Char) :=
  match cs with
  | '-' :: r => (parseDecimal r).map (fun p => (-p.1, p.2))
  | '+' :: r => parseDecimal r
  | _ => parseDecimal cs

/-- The JavaScript `parseFloat` builtin on a string: skip leading whitespace,
parse the longest numeric prefix, `NaN` (= `none`) when there is none. -/
def parseFloatStr (s : String) : Option ℚ :=
  (parseSigned (s.toList.dropWhile Char.isWhitespace)).map Prod.fst

/-- The JavaScript `ToNumber` coercion on a string: the whole trimmed string
must be a numeric literal; the empty string is `0`; otherwise `NaN`. -/
def toNumberStr (s : String) : Option ℚ :=
  let cs := ((s.toList.dropWhile Char.isWhitespace).reverse.dropWhile Char.isWhitespace).reverse
  match cs with
  | [] => some 0
  | _ =>
    match parseSigned cs with
    | some (q, []) => some q
    | _ => none

/-- Property lookup on a value already known to be non-nullish (`x.f` after a
truthiness check): objects look up the field, primitives give `undefined`. -/
def getFieldT : JVal → String → Option JVal
  | .obj fs, key => fs.lookup key
  | _, _ => none

/-- `x.f`: throws a `TypeError` when the receiver is `null`/`undefined`. -/
def jsGet : Option JVal → String → Except Unit (Option JVal)
  | none, _ => .error ()
  | some .null, _ => .error ()
  | some v, key => .ok (getFieldT v key)

/-- `x?.f`: short-circuits to `undefined` on a nullish receiver. -/
def jsGetOpt : Option JVal → String → Option JVal
  | none, _ => none
  | some .null, _ => none
  | some v, key => getFieldT v key

/-- Index access on a non-nullish value (`x[i]`). -/
def indexT : JVal → ℕ → Option JVal
  | .arr xs, i => xs.get? i
  | .obj fs, i => fs.lookup (toString i)
  | .str s, i => (s.toList.get? i).map (fun c => .str (String.mk [c]))
  | _, _ => none

/-- `x?.[i]`. -/
def jsIndexOpt : Option JVal → ℕ → Option JVal
  | none, _ => none
  | some .null, _ => none
  | some v, i => indexT v i

/-- JavaScript truthiness test (`!x` is `jsFalsy x`). -/
def jsFalsy : Option JVal → Bool
  | none => true
  | some .null => true
  | some (.bool b) => !b
  | some (.num q) => q == 0
  | some (.str s) => s == ""
  | some (.arr _) => false
  | some (.obj _) => false

/-- `parseFloat` applied to a non-undefined JS value (the argument is first
converted to a string; an array stringifies to its comma-joined elements, so
its numeric prefix is that of its first element). -/
def jsParseFloatV : JVal → Option ℚ
  | .null => none
  | .bool _ => none
  | .num q => some q
  | .str s => parseFloatStr s
  | .arr [] => none
  | .arr (x :: _) => jsParseFloatV x
  | .obj _ => none

/-- `parseFloat` on a possibly-undefined JS value; `none` is `NaN`. -/
def jsParseFloat : Option JVal → Option ℚ
  | none => none
  | some v => jsParseFloatV v

/-- `ToNumber` of a JSON value occurring as an array element, via its
stringification (`String([x]) = elementString x`). -/
def jsToNumberElem : JVal → Option ℚ
  | .null => some 0
  | .bool _ => none
  | .num q => some q
  | .str s => toNumberStr s
  | .arr [] => some 0
  | .arr [x] => jsToNumberElem x
  | .arr _ => none
  | .obj _ => none

/-- The JavaScript `ToNumber` coercion of a non-undefined value. -/
def jsToNumberV : JVal → Option ℚ
  | .null => some 0
  | .bool b => some (if b then 1 else 0)
  | .num q => some q
  | .str s => toNumberStr s
  | .arr xs => jsToNumberElem (.arr xs)
  | .obj _ => none

/-- `ToNumber` of a possibly-undefined value; `undefined` coerces to `NaN`. -/
def jsToNumber : Option JVal → Option ℚ
  | none => none
  | some v => jsToNumberV v

/-- Multiplication by a numeric literal; `NaN` propagates. -/
def jsMul (x : Option ℚ) (k : ℚ) : Option ℚ := x.map (· * k)

/-- `e || 0` where `e` is a number or `NaN`: `NaN` and `0` are falsy, so both
collapse to `0`. -/
def orZero (x : Option ℚ) : ℚ := x.getD 0

/-- `e ?? 0` where `e` is a number (possibly `NaN`): `??` tests only for
`null`/`undefined`, which a number never is, so the value — including `NaN` —
passes through unchanged. -/
def numOrNullishZero (x : Option ℚ) : Option ℚ := x

/-- The canonical current-market snapshot (`TokenStats` in `src/types.ts`);
each field is a JS number, `none` standing for `NaN`. -/
structure TokenStats where
  currentPrice : Option ℚ
  priceChange24h : Option ℚ
  marketCap : Option ℚ
  volume24h : Option ℚ
deriving DecidableEq, Repr

/-- The all-zero snapshot returned on any absorbed failure. -/
def zeroStats : TokenStats :=
  { currentPrice := some 0, priceChange24h := some 0, marketCap := some 0, volume24h := some 0 }

/-- The outcome of one `fetch`: the promise rejects (`netError`), or a
response arrives with an `ok` flag and a body (`none` when `response.json()`
rejects because the body is not valid JSON). -/
inductive FetchResult where
  | netError
  | response (ok : Bool) (body : Option JVal)

instance {ε α : Type} [DecidableEq ε] [DecidableEq α] : DecidableEq (Except ε α) := fun a b =>
  match a, b with
  | .error e1, .error e2 =>
    if h : e1 = e2 then .isTrue (by rw [h]) else .isFalse (by simp [h])
  | .ok v1, .ok v2 =>
    if h : v1 = v2 then .isTrue (by rw [h]) else .isFalse (by simp [h])
  | .error _, .ok _ => .isFalse (by simp)
  | .ok _, .error _ => .isFalse (by simp)

/-- `try { e } catch { return d }`. -/
def catchWith (e : Except Unit α) (d : α) : Except Unit α :=
  match e with
  | .error _ => .ok d
  | .ok v => .ok v

/-- Body of the OKX variant of `fetchCurrentPrice` (`src/services/api.ts`
lines 8–31), before its `catch`.  Note the three `?? 0` (not `|| 0`) on the
last three fields. -/
def fetchCurrentPriceOkxBody (r : FetchResult) : Except Unit TokenStats :=
  match r with
  | .netError => .error ()
  | .response ok body =>
    if !ok then .error ()
    else
      match body with
      | none => .error ()
      | some json => do
        let dataField ← jsGet (some json) "data"
        if jsFalsy dataField then .error ()
        else do
          let priceUsd ← jsGet dataField "priceUsd"
          let priceChange ← jsGet dataField "priceChange24h"
          let fdv ← jsGet dataField "fdv"
          let volume ← jsGet dataField "volume24h"
          .ok { currentPrice := some (orZero (jsParseFloat priceUsd))
                priceChange24h := numOrNullishZero (jsParseFloat priceChange)
                marketCap := numOrNullishZero (jsParseFloat fdv)
                volume24h := numOrNullishZero (jsParseFloat volume) }

/-- The OKX variant of `fetchCurrentPrice`, `catch` included. -/
def fetchCurrentPriceOkx (r : FetchResult) : Except Unit TokenStats :=
  catchWith (fetchCurrentPriceOkxBody r) zeroStats

/-- Body of the GeckoTerminal variant of `fetchCurrentPrice`
(`src/unnamed/part_000` lines 7–36), before its `catch`. -/
def fetchCurrentPriceGeckoBody (r : FetchResult) : Except Unit TokenStats :=
  match r with
  | .netError => .error ()
  | .response ok body =>
    if !ok then .error ()
    else
      match body with
      | none => .error ()
      | some json => do
        let dataField ← jsGet (some json) "data"
        let attributes := jsGetOpt dataField "attributes"
        if jsFalsy attributes then .error ()
        else do
          let priceUsd ← jsGet attributes "price_usd"
          let pcp ← jsGet attributes "price_change_percentage"
          let h24 := jsGetOpt pcp "h24"
          let fdv ← jsGet attributes "fdv_usd"
          let vol ← jsGet attributes "total_volume_usd"
          .ok { currentPrice := some (orZero (jsParseFloat priceUsd))
                priceChange24h := some (orZero (jsParseFloat h24))
                marketCap := some (orZero (jsParseFloat fdv))
                volume24h := some (orZero (jsParseFloat vol)) }

/-- The GeckoTerminal variant of `fetchCurrentPrice`, `catch` included. -/
def fetchCurrentPriceGecko (r : FetchResult) : Except Unit TokenStats :=
  catchWith (fetchCurrentPriceGeckoBody r) zeroStats

/-- One normalized historical observation (mapped from an OHLCV bar); `none`
is `NaN`. -/
structure PricePoint where
  timestamp : Option ℚ
  price : Option ℚ
deriving DecidableEq, Repr

/-- The sort key used on mapped points: the timestamp, with `NaN` (whose
comparator behaviour is implementation-defined in JS) keyed as `0`. -/
def tsKey (p : PricePoint) : ℚ := p.timestamp.getD 0

/-- The per-bar mapping `item => ({ timestamp: item[0] * 1000, price:
parseFloat(item[4]) })`. -/
def ohlcvPoint (item : JVal) : PricePoint :=
  { timestamp := jsMul (jsToNumber (indexT item 0)) 1000
    price := jsParseFloat (indexT item 4) }

/-- `ohlcvList.map(...).sort((a, b) => a.timestamp - b.timestamp)`. -/
def ohlcvToPoints (items : List JVal) : List PricePoint :=
  (items.map ohlcvPoint).mergeSort (fun a b => decide (tsKey a ≤ tsKey b))

/-- An OHLCV bar whose slot 0 holds a JSON number — the shape every
well-formed upstream bar has (`[ts, open, high, low, close, volume]`). -/
def hasNumTimestamp : JVal → Bool
  | .arr (.num _ :: _) => true
  | _ => false

/-- The extraction `data.data.attributes.ohlcv_list` (plain accesses: a
nullish link throws). -/
def ohlcvItems (json : JVal) : Except Unit (Option JVal) := do
  let d1 ← jsGet (some json) "data"
  let d2 ← jsGet d1 "attributes"
  jsGet d2 "ohlcv_list"

/-- Body of `fetchHistoricalData` (`src/services/api.ts` lines 36–63), before
its `catch`.  `pools` is the outcome of the pools request, `hist` the outcome
of the OHLCV request (its URL embeds the resolved pool address, which does
not influence the value computed here). -/
def fetchHistoricalDataBody (pools hist : FetchResult) : Except Unit (List PricePoint) :=
  match pools with
  | .netError => .error ()
  | .response ok body =>
    if !ok then .ok []
    else
      match body with
      | none => .error ()
      | some poolsJson => do
        let dataField ← jsGet (some poolsJson) "data"
        let topPool := jsIndexOpt dataField 0
        if jsFalsy topPool then .ok []
        else do
          let attrs ← jsGet topPool "attributes"
          let _poolAddress ← jsGet attrs "address"
          match hist with
          | .netError => .error ()
          | .response ok2 body2 =>
            if !ok2 then .ok []
            else
              match body2 with
              | none => .error ()
              | some json => do
                let ohlcvList ← ohlcvItems json
                match ohlcvList with
                | some (.arr items) => .ok (ohlcvToPoints items)
                | _ => .error ()

/-- `fetchHistoricalData`, `catch` included. -/
def fetchHistoricalData (pools hist : FetchResult) : Except Unit (List PricePoint) :=
  catchWith (fetchHistoricalDataBody pools hist) []

/-- One element of the canonical historical series consumed by the engine
(`PriceData` in `src/types.ts`): finite numbers. -/
structure PriceData where
  timestamp : ℚ
  price : ℚ
deriving DecidableEq, Repr

/-- One element of the `results` array in `src/App.tsx` (first variant).
The two presentation-only date strings are omitted. -/
structure ResultPoint where
  price : ℚ
  tokenBalance : ℚ
  usdValue : ℚ
  multiplier : ℚ
deriving DecidableEq, Repr

/-- One element of the `results` array in `src/unnamed/part_001`, which does
not carry a `tokenBalance` field. -/
structure ResultPointP1 where
  price : ℚ
  usdValue : ℚ
  multiplier : ℚ
deriving DecidableEq, Repr

/-- `historicalPrices.filter(p => p.timestamp >= startTimestamp)`. -/
def filterFrom (prices : List PriceData) (startTs : ℚ) : List PriceData :=
  prices.filter (fun p => startTs ≤ p.timestamp)

/-- `list.slice(-30)`: the most recent thirty elements. -/
def lastN (n : ℕ) (l : List PriceData) : List PriceData :=
  l.drop (l.length - n)

/-- A falsy-skipping default: `x || d`, on finite numbers (`0` is falsy). -/
def jsOrQ (x : Option ℚ) (d : ℚ) : ℚ :=
  match x with
  | none => d
  | some q => if q = 0 then d else q

/-- The window used by the `App.tsx` (first variant) projection: the filtered
series, with no fallback. -/
def appWindow (prices : List PriceData) (startTs : ℚ) : List PriceData :=
  filterFrom prices startTs

/-- The base price of the `App.tsx` projection: `relevantPrices[0].price`
(read only after a non-emptiness check; `0` placeholder otherwise). -/
def appBasePrice (prices : List PriceData) (startTs : ℚ) : ℚ :=
  ((appWindow prices startTs).head?.map PriceData.price).getD 0

/-- `initialTokens = investment / initialPrice` of the `App.tsx` variant. -/
def appInitialTokens (prices : List PriceData) (investment startTs : ℚ) : ℚ :=
  investment / appBasePrice prices startTs

/-- The per-point computation shared by every variant:
`currentTokens = initialTokens * (1 + dailyYieldRate) ^ index`, then price,
balance, USD value and multiplier. -/
def projPoint (initialTokens r : ℚ) (index : ℕ) (point : PriceData) : ResultPoint :=
  let currentTokens := initialTokens * (1 + r) ^ index
  { price := point.price
    tokenBalance := currentTokens
    usdValue := currentTokens * point.price
    multiplier := currentTokens / initialTokens }

/-- The same computation for the `part_001` shape (no `tokenBalance`). -/
def projPointP1 (initialTokens r : ℚ) (index : ℕ) (point : PriceData) : ResultPointP1 :=
  let currentTokens := initialTokens * (1 + r) ^ index
  { price := point.price
    usdValue := currentTokens * point.price
    multiplier := currentTokens / initialTokens }

/-- The `results` memo of `src/App.tsx` lines 41–64: filter from the start
timestamp, return `[]` when the filter is empty (no fallback window and no
zero-base-price guard), then map the compounding step over the window.
`r` is the already-computed daily yield rate and `startTs` the start date
normalized to midnight. -/
def resultsApp (prices : List PriceData) (investment r startTs : ℚ) : List ResultPoint :=
  if prices.isEmpty then []
  else if (appWindow prices startTs).isEmpty then []
  else (appWindow prices startTs).mapIdx (projPoint (appInitialTokens prices investment startTs) r)

/-- The window of the `src/services/api.ts` lines 204–231 variant: on an
empty filter, fall back to the most recent thirty points. -/
def apiWindow (prices : List PriceData) (startTs : ℚ) : List PriceData :=
  if (filterFrom prices startTs).isEmpty then lastN 30 prices else filterFrom prices startTs

/-- `relevantPrices[0]?.price || stats?.currentPrice || 0` for the api
variant (`stats` is `none` when the stats object is still `null`). -/
def apiBasePrice (prices : List PriceData) (startTs : ℚ) (stats : Option ℚ) : ℚ :=
  jsOrQ ((apiWindow prices startTs).head?.map PriceData.price) (jsOrQ stats 0)

/-- The `results` memo embedded in `src/services/api.ts` lines 204–231:
slice(-30) fallback window, base-price fallback chain, empty output on a
zero base price. -/
def resultsApi (prices : List PriceData) (investment r startTs : ℚ) (stats : Option ℚ) :
    List ResultPoint :=
  if prices.isEmpty then []
  else if apiBasePrice prices startTs stats = 0 then []
  else (apiWindow prices startTs).mapIdx
    (projPoint (investment / apiBasePrice prices startTs stats) r)

/-- The window of the `src/unnamed/part_001` lines 59–86 variant: on an
empty filter, fall back to the entire series. -/
def p1Window (prices : List PriceData) (startTs : ℚ) : List PriceData :=
  if (filterFrom prices startTs).isEmpty then prices else filterFrom prices startTs

/-- `filtered[0]?.price || stats?.currentPrice || 0` for the part_001
variant. -/
def p1BasePrice (prices : List PriceData) (startTs : ℚ) (stats : Option ℚ) : ℚ :=
  jsOrQ ((p1Window prices startTs).head?.map PriceData.price) (jsOrQ stats 0)

/-- The `results` memo of `src/unnamed/part_001` lines 59–86: entire-series
fallback window, base-price fallback chain, empty output on a zero base
price, points without a `tokenBalance` field. -/
def resultsPart1 (prices : List PriceData) (investment r startTs : ℚ) (stats : Option ℚ) :
    List ResultPointP1 :=
  if prices.isEmpty then []
  else if p1BasePrice prices startTs stats = 0 then []
  else (p1Window prices startTs).mapIdx
    (projPointP1 (investment / p1BasePrice prices startTs stats) r)

/-- The `summary` memo of `src/App.tsx` lines 66–77, derived from the last
projection point; `none` when the projection is empty. -/
structure SummaryApp where
  totalUsdValue : ℚ
  totalTokens : ℚ
  netProfitUsd : ℚ
  totalRoiPercent : ℚ
  multiplier : ℚ
  dailyEst : ℚ
deriving DecidableEq, Repr

/-- `summary` of `src/App.tsx` lines 66–77. -/
def summaryApp (results : List ResultPoint) (investment r : ℚ) : Option SummaryApp :=
  match results.getLast? with
  | none => none
  | some last =>
    some { totalUsdValue := last.usdValue
           totalTokens := last.tokenBalance
           netProfitUsd := last.usdValue - investment
           totalRoiPercent := (last.usdValue - investment) / investment * 100
           multiplier := last.multiplier
           dailyEst := last.usdValue * r }

/-- `dailyYieldRate = Math.pow(1 + annualYield / 100, 1 / 365) - 1`
(`src/App.tsx` line 20).  The fractional exponent makes this a real-power
computation, hence noncomputable; the engine functions take the resulting
rate as the parameter `r`. -/
noncomputable def dailyYieldRate (annualYield : ℝ) : ℝ :=
  (1 + annualYield / 100) ^ ((1 : ℝ) / 365) - 1

/-! ## Helper lemmas -/

theorem catchWith_isOk (e : Except Unit α) (d : α) : (catchWith e d).isOk := by
  cases e <;> rfl

theorem catchWith_eq_ok_default (e : Except Unit α) (d : α)
    (h : e = .error () ∨ e = .ok d) : catchWith e d = .ok d := by
  rcases h with h | h <;> simp [catchWith, h]

theorem catchWith_ok_cases (e : Except Unit α) (d v : α)
    (h : catchWith e d = .ok v) : v = d ∨ e = .ok v := by
  cases e with
  | error u => left; simp [catchWith] at h; exact h.symm
  | ok w => right; simpa [catchWith] using h

/-! ## C2: the `?? 0` slip in the OKX variant -/

/-- C2: the claim says every field of the `TokenStats` returned by
`fetchCurrentPrice` is `0` when the upstream value is absent or not parseable,
never `NaN`.  The OKX variant (`src/services/api.ts` lines 20–25) writes
`parseFloat(data.priceChange24h) ?? 0`; `parseFloat` never returns a nullish
value, so `??` never fires and a malformed `priceChange24h` yields `NaN`
(modelled as `none`), contradicting the claim.  Here the upstream payload is
well-formed except for `priceChange24h = "abc"`. -/
theorem fetchCurrentPriceOkx_nan_on_malformed :
    fetchCurrentPriceOkx (.response true (some (.obj [("data",
      .obj [("priceUsd", .str "2"), ("priceChange24h", .str "abc"),
            ("fdv", .str "3"), ("volume24h", .str "4")])]))) =
    .ok { currentPrice := some 2, priceChange24h := none,
          marketCap := some 3, volume24h := some 4 } := by
  simp +decide [fetchCurrentPriceOkx, fetchCurrentPriceOkxBody, catchWith, jsGet, getFieldT,
    jsFalsy, jsParseFloat, jsParseFloatV, parseFloatStr, parseSigned, parseDecimal,
    digitsVal, orZero, numOrNullishZero, List.lookup, List.takeWhile, List.dropWhile,
    bind, Except.bind]

/-! ## More helper lemmas -/

theorem map_mapIdx (l : List α) (f : ℕ → α → β) (g : β → γ) :
    (l.mapIdx f).map g = l.mapIdx (fun i a => g (f i a)) := by
  apply List.ext_getElem
  · simp
  · intro i h1 h2
    simp

theorem resultsApp_tokenBalance_getElem (prices : List PriceData) (investment r startTs : ℚ)
    (i : ℕ) (hi : i < (resultsApp prices investment r startTs).length) :
    ((resultsApp prices investment r startTs).get ⟨i, hi⟩).tokenBalance =
      appInitialTokens prices investment startTs * (1 + r) ^ i := by
  by_cases h1 : prices.isEmpty
  · exfalso; simp [resultsApp, h1] at hi
  · by_cases h2 : (appWindow prices startTs).isEmpty
    · exfalso; simp [resultsApp, h1, h2] at hi
    · simp [resultsApp, h1, h2, List.get_eq_getElem, projPoint]

/-! ## C8: the concrete two-point example -/

/-- C8: for the series `[(0, 10), (1, 20)]`, principal `100`, zero annual
yield (so the daily rate is `0`) and start date at the first timestamp, the
`App.tsx` projection has `initialTokens = 10`, point 0 has `usdValue = 100`,
point 1 has `usdValue = 200`, and the summary reports `netProfitUsd = 100`
and `totalRoiPercent = 100`. -/
theorem projection_concrete_example :
    dailyYieldRate 0 = 0 ∧
    appInitialTokens [⟨0, 10⟩, ⟨1, 20⟩] 100 0 = 10 ∧
    (resultsApp [⟨0, 10⟩, ⟨1, 20⟩] 100 0 0).map ResultPoint.usdValue = [100, 200] ∧
    (summaryApp (resultsApp [⟨0, 10⟩, ⟨1, 20⟩] 100 0 0) 100 0).map
      (fun s => (s.netProfitUsd, s.totalRoiPercent)) = some (100, 100) := by
  refine ⟨?_, ?_, ?_, ?_⟩
  · norm_num [dailyYieldRate, Real.one_rpow]
  · simp +decide [appInitialTokens, appBasePrice, appWindow, filterFrom]
    norm_num
  · simp +decide [resultsApp, appWindow, filterFrom, appInitialTokens, appBasePrice, projPoint]
    norm_num
  · simp +decide [resultsApp, appWindow, filterFrom, appInitialTokens, appBasePrice, projPoint,
      summaryApp]
    norm_num

/-! ## C9: zero yield gives rate 0 and a constant token balance -/

/-- C9: `dailyYieldRate 0 = 0` (the real-power computation of
`src/App.tsx` line 20 at `annualYield = 0`), and with a zero daily rate the
`tokenBalance` of every projection point is the same. -/
theorem zero_yield_constant_balance :
    dailyYieldRate 0 = 0 ∧
    ∀ (prices : List PriceData) (investment startTs : ℚ) (i j : ℕ)
      (hi : i < (resultsApp prices investment 0 startTs).length)
      (hj : j < (resultsApp prices investment 0 startTs).length),
      ((resultsApp prices investment 0 startTs).get ⟨i, hi⟩).tokenBalance =
        ((resultsApp prices investment 0 startTs).get ⟨j, hj⟩).tokenBalance := by
  constructor
  · norm_num [dailyYieldRate, Real.one_rpow]
  · intro prices investment startTs i j hi hj
    rw [resultsApp_tokenBalance_getElem, resultsApp_tokenBalance_getElem]
    norm_num

/-- Witness for C9 at the concrete series `[(0, 10), (1, 20)]`. -/
theorem zero_yield_constant_balance_witness :
    ((resultsApp [⟨0, 10⟩, ⟨1, 20⟩] 100 0 0).get
        ⟨0, by simp +decide [resultsApp, appWindow, filterFrom]⟩).tokenBalance =
      ((resultsApp [⟨0, 10⟩, ⟨1, 20⟩] 100 0 0).get
        ⟨1, by simp +decide [resultsApp, appWindow, filterFrom]⟩).tokenBalance :=
  zero_yield_constant_balance.2 [⟨0, 10⟩, ⟨1, 20⟩] 100 0 0 1
    (by simp +decide [resultsApp, appWindow, filterFrom])
    (by simp +decide [resultsApp, appWindow, filterFrom])

/-! ## C6: negative principal is not clamped to 0 -/

/-- C6 counterexample: the claim says the engine treats a negative principal
as `0`.  At the concrete series `[(0, 10)]` with principal `-100`
(`part_001` variant, zero rate, start at `0`, no fallback stats) the single
projection point has `usdValue = -100`, while principal `0` produces
`usdValue = 0` — so a negative principal is not treated as `0`. -/
theorem resultsPart1_negative_principal_not_clamped :
    (resultsPart1 [⟨0, 10⟩] (-100) 0 0 none).map ResultPointP1.usdValue = [-100] ∧
    (resultsPart1 [⟨0, 10⟩] 0 0 0 none).map ResultPointP1.usdValue = [0] := by
  constructor <;>
    simp +decide [resultsPart1, p1Window, p1BasePrice, filterFrom, jsOrQ, projPointP1]

/-- C6 amended: the engine applies no clamping at all — the projection is
linear in the principal, so a negative (or any) principal scales the
`usdValue` of every point of the principal-`1` projection. -/
theorem resultsPart1_linear_in_principal (prices : List PriceData)
    (investment r startTs : ℚ) (stats : Option ℚ) :
    (resultsPart1 prices investment r startTs stats).map ResultPointP1.usdValue =
      ((resultsPart1 prices 1 r startTs stats).map ResultPointP1.usdValue).map
        (fun v => investment * v) := by
  by_cases h1 : prices.isEmpty
  · simp [resultsPart1, h1]
  · by_cases h2 : p1BasePrice prices startTs stats = 0
    · simp [resultsPart1, h1, h2]
    · simp only [resultsPart1, h1, h2, if_false, if_neg, Bool.false_eq_true, map_mapIdx]
      rw [List.mapIdx_eq_mapIdx_iff]
      intro i hlt
      simp only [projPointP1]
      ring

/-! ## C4: behaviour when the start date postdates the whole series -/

/-- C4 counterexample: the claim says the projection never returns an empty
point list when the filter is empty (it should fall back to a window).  The
`App.tsx` variant (lines 44–45) has no fallback: for the non-empty series
`[(0, 10)]` and start timestamp `1` the filter is empty and the projection
is `[]`. -/
theorem resultsApp_empty_on_stale_start :
    ([⟨0, 10⟩] : List PriceData) ≠ [] ∧
    filterFrom [⟨0, 10⟩] 1 = [] ∧
    resultsApp [⟨0, 10⟩] 100 0 1 = [] := by
  refine ⟨by simp, ?_, ?_⟩ <;> simp +decide [filterFrom, resultsApp, appWindow]

/-! ## C5: zero base price -/

/-- C5 counterexample: the claim says a zero first-window price with a zero
fallback yields an empty point list on every variant.  The `App.tsx` variant
(lines 47–48) has no base-price guard (and consults no fallback at all): for
the series `[(0, 0)]` the window's first price is `0`, yet the projection
still produces one point. -/
theorem resultsApp_nonempty_on_zero_base :
    appBasePrice [⟨0, 0⟩] 0 = 0 ∧
    (resultsApp [⟨0, 0⟩] 100 0 0).length = 1 := by
  constructor <;> simp +decide [appBasePrice, appWindow, filterFrom, resultsApp]

/-- C4 amended: in the two variants that do have a fallback, an empty filter
falls back to a non-empty window — the most recent thirty points
(`src/services/api.ts` `slice(-30)`) or the entire series
(`src/unnamed/part_001`) — and, provided the resulting base price is
nonzero, the projection has exactly one point per window element. -/
theorem fallback_variants_nonempty_window (prices : List PriceData)
    (investment r startTs : ℚ) (stats : Option ℚ)
    (hne : prices ≠ []) (hfil : filterFrom prices startTs = [])
    (hbApi : apiBasePrice prices startTs stats ≠ 0)
    (hbP1 : p1BasePrice prices startTs stats ≠ 0) :
    (resultsApi prices investment r startTs stats).length = (lastN 30 prices).length ∧
    resultsApi prices investment r startTs stats ≠ [] ∧
    (resultsPart1 prices investment r startTs stats).length = prices.length ∧
    resultsPart1 prices investment r startTs stats ≠ [] := by
  have hemp : ¬ prices.isEmpty := by simp [List.isEmpty_iff, hne]
  have hwApi : apiWindow prices startTs = lastN 30 prices := by
    simp [apiWindow, hfil]
  have hwP1 : p1Window prices startTs = prices := by
    simp [p1Window, hfil]
  have hlast : lastN 30 prices ≠ [] := by
    simp only [lastN, ne_eq, List.drop_eq_nil_iff]
    cases prices with
    | nil => exact absurd rfl hne
    | cons a t => simp; omega
  refine ⟨?_, ?_, ?_, ?_⟩
  · simp [resultsApi, hemp, hbApi, hwApi]
  · simp [resultsApi, hemp, hbApi, hwApi, List.mapIdx_ne_nil_iff, hlast]
  · simp [resultsPart1, hemp, hbP1, hwP1]
  · simp [resultsPart1, hemp, hbP1, hwP1, List.mapIdx_ne_nil_iff, hne]

/-- Witness for C4's amended theorem: series `[(0, 10)]`, start timestamp
`1` (later than every point), no stats. -/
theorem fallback_variants_nonempty_window_witness :
    resultsApi [⟨0, 10⟩] 100 0 1 none ≠ [] ∧ resultsPart1 [⟨0, 10⟩] 100 0 1 none ≠ [] := by
  have h := fallback_variants_nonempty_window [⟨0, 10⟩] 100 0 1 none
    (by simp)
    (by simp +decide [filterFrom])
    (by simp +decide [apiBasePrice, apiWindow, filterFrom, lastN, jsOrQ])
    (by simp +decide [p1BasePrice, p1Window, filterFrom, jsOrQ])
  exact ⟨h.2.1, h.2.2.2⟩

/-- C5 amended: in the two guarded variants (`src/services/api.ts`,
`src/unnamed/part_001`), when the first point of the fallback-resolved
window has price `0` (or the window is empty) and the fallback current
price is `0` (or the stats are still `null`), the projection is the empty
list — the division by the base price is never reached.  (The `App.tsx`
variant has no such guard; see the counterexample.) -/
theorem guarded_variants_empty_on_zero_base (prices : List PriceData)
    (investment r startTs : ℚ) (stats : Option ℚ)
    (hApiFirst : ∀ p0 ∈ (apiWindow prices startTs).head?, p0.price = 0)
    (hP1First : ∀ p0 ∈ (p1Window prices startTs).head?, p0.price = 0)
    (hstats : stats = some 0 ∨ stats = none) :
    resultsApi prices investment r startTs stats = [] ∧
    resultsPart1 prices investment r startTs stats = [] := by
  have hApi : apiBasePrice prices startTs stats = 0 := by
    unfold apiBasePrice
    cases hh : (apiWindow prices startTs).head? with
    | none => rcases hstats with h | h <;> simp [hh, h, jsOrQ]
    | some p0 =>
      have hp := hApiFirst p0 (by simp [hh])
      rcases hstats with h | h <;> simp [hh, hp, h, jsOrQ]
  have hP1 : p1BasePrice prices startTs stats = 0 := by
    unfold p1BasePrice
    cases hh : (p1Window prices startTs).head? with
    | none => rcases hstats with h | h <;> simp [hh, h, jsOrQ]
    | some p0 =>
      have hp := hP1First p0 (by simp [hh])
      rcases hstats with h | h <;> simp [hh, hp, h, jsOrQ]
  constructor
  · by_cases hemp : prices.isEmpty <;> simp [resultsApi, hemp, hApi]
  · by_cases hemp : prices.isEmpty <;> simp [resultsPart1, hemp, hP1]

/-- Witness for C5's amended theorem: series `[(0, 0)]` (zero price), stats
`some 0`. -/
theorem guarded_variants_empty_on_zero_base_witness :
    resultsApi [⟨0, 0⟩] 100 0 0 (some 0) = [] ∧
    resultsPart1 [⟨0, 0⟩] 100 0 0 (some 0) = [] :=
  guarded_variants_empty_on_zero_base [⟨0, 0⟩] 100 0 0 (some 0)
    (by simp +decide [apiWindow, filterFrom])
    (by simp +decide [p1Window, filterFrom])
    (Or.inl rfl)

/-! ## C7: per-point invariants and strict balance growth -/

/-- C7: every point of the `App.tsx` projection satisfies
`usdValue = tokenBalance * price` and
`multiplier = tokenBalance / initialTokens`, and when the daily yield rate is
positive and the initial token balance is positive the `tokenBalance` is
strictly increasing in the point index. -/
theorem resultsApp_point_invariants (prices : List PriceData) (investment r startTs : ℚ) :
    (∀ p ∈ resultsApp prices investment r startTs,
      p.usdValue = p.tokenBalance * p.price ∧
      p.multiplier = p.tokenBalance / appInitialTokens prices investment startTs) ∧
    (0 < r → 0 < appInitialTokens prices investment startTs →
      (resultsApp prices investment r startTs).Pairwise
        (fun a b => a.tokenBalance < b.tokenBalance)) := by
  constructor
  · intro p hp
    by_cases h1 : prices.isEmpty
    · simp [resultsApp, h1] at hp
    · by_cases h2 : (appWindow prices startTs).isEmpty
      · simp [resultsApp, h1, h2] at hp
      · simp only [resultsApp, h1, h2, if_false, Bool.false_eq_true, List.mem_mapIdx] at hp
        obtain ⟨i, hi, rfl⟩ := hp
        simp [projPoint]
  · intro hr hT
    rw [List.pairwise_iff_getElem]
    intro i j hi hj hij
    rw [← List.get_eq_getElem _ ⟨i, hi⟩, ← List.get_eq_getElem _ ⟨j, hj⟩,
      resultsApp_tokenBalance_getElem, resultsApp_tokenBalance_getElem]
    have h1r : (1 : ℚ) < 1 + r := by linarith
    exact mul_lt_mul_of_pos_left (pow_lt_pow_right₀ h1r hij) hT

/-- Witness for C7: series `[(0, 10), (1, 20)]`, principal `100`, rate `1`. -/
theorem resultsApp_point_invariants_witness :
    (resultsApp [⟨0, 10⟩, ⟨1, 20⟩] 100 1 0).Pairwise
      (fun a b => a.tokenBalance < b.tokenBalance) :=
  (resultsApp_point_invariants [⟨0, 10⟩, ⟨1, 20⟩] 100 1 0).2 (by norm_num)
    (by simp +decide [appInitialTokens, appBasePrice, appWindow, filterFrom])

/-! ## C10: the first projection point -/

/-- C10 counterexample: the claim says the first point of every non-empty
projection has `multiplier = 1`.  With principal `0` (series `[(0, 10)]`,
stats `5`) the output is non-empty but the first multiplier is
`0 / 0` — `0` in this rational model, `NaN` in JavaScript — and in either
semantics it is not `1`. -/
theorem resultsApi_zero_principal_multiplier :
    resultsApi [⟨0, 10⟩] 0 0 0 (some 5) ≠ [] ∧
    (resultsApi [⟨0, 10⟩] 0 0 0 (some 5)).head?.map ResultPoint.multiplier ≠ some 1 := by
  constructor <;>
    simp +decide [resultsApi, apiWindow, apiBasePrice, filterFrom, jsOrQ, projPoint]

/-- C10 amended: for every non-empty `api`-variant projection the first
point has `tokenBalance = investment / basePrice`; its `multiplier` is `1`
provided the principal is nonzero; and its `usdValue` is the principal when
the window's first price is nonzero but `0` when that price is `0` (base
price taken from the fallback), whatever the principal. -/
theorem resultsApi_first_point (prices : List PriceData) (investment r startTs : ℚ)
    (stats : Option ℚ) (p0 : ResultPoint)
    (h : (resultsApi prices investment r startTs stats).head? = some p0) :
    p0.tokenBalance = investment / apiBasePrice prices startTs stats ∧
    (investment ≠ 0 → p0.multiplier = 1) ∧
    (∀ q0 ∈ (apiWindow prices startTs).head?,
      (q0.price ≠ 0 → p0.usdValue = investment) ∧ (q0.price = 0 → p0.usdValue = 0)) := by
  by_cases h1 : prices.isEmpty
  · simp [resultsApi, h1] at h
  · by_cases h2 : apiBasePrice prices startTs stats = 0
    · simp [resultsApi, h1, h2] at h
    · rw [resultsApi, if_neg, if_neg] at h
      rotate_left
      · exact h2
      · simp [h1]
      rw [List.head?_mapIdx] at h
      cases hw : (apiWindow prices startTs).head? with
      | none => rw [hw] at h; simp at h
      | some q0 =>
        rw [hw] at h
        simp only [Option.map_some'] at h
        obtain rfl := (Option.some.injEq _ _).mp h
        have hbase : apiBasePrice prices startTs stats =
            jsOrQ (some q0.price) (jsOrQ stats 0) := by
          simp [apiBasePrice, hw]
        refine ⟨?_, ?_, ?_⟩
        · simp [projPoint]
        · intro hinv
          have hT : investment / apiBasePrice prices startTs stats ≠ 0 :=
            div_ne_zero hinv h2
          simp [projPoint, div_self hT]
        · intro q0h hq0h
          simp only [Option.mem_def, Option.some.injEq] at hq0h
          subst hq0h
          constructor
          · intro hq
            have hb : apiBasePrice prices startTs stats = q0.price := by
              rw [hbase]; simp [jsOrQ, hq]
            simp [projPoint, hb, div_mul_cancel₀ investment hq]
          · intro hq
            simp [projPoint, hq]

/-- Witness for C10's amended theorem at the series `[(0, 10)]`, principal
`100`, stats absent: the first point is `(10, 10, 100, 1)`. -/
theorem resultsApi_first_point_witness :
    ((⟨10, 10, 100, 1⟩ : ResultPoint)).tokenBalance =
      100 / apiBasePrice [⟨0, 10⟩] 0 none ∧
    ((⟨10, 10, 100, 1⟩ : ResultPoint)).multiplier = 1 := by
  have h0 : (resultsApi [⟨0, 10⟩] 100 0 0 none).head? = some ⟨10, 10, 100, 1⟩ := by
    simp +decide [resultsApi, apiWindow, apiBasePrice, filterFrom, jsOrQ, projPoint]
    norm_num
  have h := resultsApi_first_point [⟨0, 10⟩] 100 0 0 none ⟨10, 10, 100, 1⟩ h0
  exact ⟨h.1, h.2.1 (by norm_num)⟩

/-! ## C3: the historical series is sorted ascending by timestamp -/

theorem ohlcvToPoints_chain (items : List JVal) :
    List.Chain' (fun a b => tsKey a ≤ tsKey b) (ohlcvToPoints items) := by
  have h : (List.mergeSort (items.map ohlcvPoint)
      (fun a b => decide (tsKey a ≤ tsKey b))).Pairwise
      (fun a b => decide (tsKey a ≤ tsKey b) = true) := by
    apply List.sorted_mergeSort
    · intro a b c hab hbc
      simp only [decide_eq_true_eq] at *
      exact le_trans hab hbc
    · intro a b
      simp only [Bool.or_eq_true, decide_eq_true_eq]
      exact le_total (tsKey a) (tsKey b)
  have h2 : (ohlcvToPoints items).Pairwise (fun a b => tsKey a ≤ tsKey b) := by
    refine List.Pairwise.imp ?_ h
    intro a b hab
    simpa using hab
  exact h2.chain'

theorem ohlcvPoint_timestamp_isSome (item : JVal) (h : hasNumTimestamp item = true) :
    (ohlcvPoint item).timestamp.isSome := by
  rcases item with _ | b | q | s | elems | fs <;>
    try simp [hasNumTimestamp] at h
  rcases elems with _ | ⟨x, rest⟩
  · simp [hasNumTimestamp] at h
  · rcases x with _ | b | t | s | e2 | f2 <;> try simp [hasNumTimestamp] at h
    simp [ohlcvPoint, indexT, jsToNumber, jsToNumberV, jsMul]

theorem fetchHistoricalDataBody_ok_shape (pools hist : FetchResult) (v : List PricePoint)
    (h : fetchHistoricalDataBody pools hist = .ok v) :
    v = [] ∨ ∃ items, v = ohlcvToPoints items := by
  cases pools with
  | netError => simp [fetchHistoricalDataBody] at h
  | response ok body =>
    cases ok with
    | false =>
      left
      simpa [fetchHistoricalDataBody] using h.symm
    | true =>
      cases body with
      | none => simp [fetchHistoricalDataBody] at h
      | some pj =>
        simp only [fetchHistoricalDataBody] at h
        cases hd : jsGet (some pj) "data" with
        | error u => rw [hd] at h; simp [bind, Except.bind] at h
        | ok dv =>
          rw [hd] at h
          simp only [bind, Except.bind] at h
          by_cases hfp : jsFalsy (jsIndexOpt dv 0) = true
          · rw [if_pos hfp] at h
            left
            simpa using h.symm
          · rw [if_neg hfp] at h
            cases ha : jsGet (jsIndexOpt dv 0) "attributes" with
            | error u => rw [ha] at h; simp at h
            | ok av =>
              rw [ha] at h
              simp only at h
              cases hpa : jsGet av "address" with
              | error u => rw [hpa] at h; simp at h
              | ok addr =>
                rw [hpa] at h
                simp only at h
                cases hist with
                | netError => simp at h
                | response ok2 body2 =>
                  cases ok2 with
                  | false => left; simpa using h.symm
                  | true =>
                    cases body2 with
                    | none => simp at h
                    | some json =>
                      simp only [Bool.not_true, Bool.false_eq_true, if_false] at h
                      cases ho : ohlcvItems json with
                      | error u => rw [ho] at h; simp at h
                      | ok ov =>
                        rw [ho] at h
                        simp only at h
                        rcases ov with _ | ⟨_ | _ | _ | _ | items | _⟩ <;>
                          simp at h
                        right
                        exact ⟨items, h.symm⟩

/-- C3: every `PricePoint` list that `fetchHistoricalData` returns is sorted
ascending by (`NaN`-defaulted) timestamp key, and for a well-formed OHLCV
payload — every bar an array whose slot 0 is a JSON number, supplied in any
order — every mapped timestamp is an actual (non-`NaN`) number, so the list
is ascending in the timestamps themselves. -/
theorem fetchHistoricalData_sorted :
    (∀ (pools hist : FetchResult) (pts : List PricePoint),
      fetchHistoricalData pools hist = .ok pts →
      List.Chain' (fun a b => tsKey a ≤ tsKey b) pts) ∧
    (∀ items : List JVal, (∀ item ∈ items, hasNumTimestamp item = true) →
      ∀ q ∈ ohlcvToPoints items, q.timestamp.isSome) := by
  constructor
  · intro pools hist pts hret
    rcases catchWith_ok_cases _ _ _ hret with rfl | hbody
    · simp
    · rcases fetchHistoricalDataBody_ok_shape pools hist pts hbody with rfl | ⟨items, rfl⟩
      · simp
      · exact ohlcvToPoints_chain items
  · intro items hwf q hq
    have hmem : q ∈ (items.map ohlcvPoint) := by
      simpa [ohlcvToPoints] using hq
    rcases List.mem_map.mp hmem with ⟨item, hitem, rfl⟩
    exact ohlcvPoint_timestamp_isSome item (hwf item hitem)

/-- Witness for C3: a two-bar payload supplied in descending order comes
back ascending with defined timestamps. -/
theorem fetchHistoricalData_sorted_witness :
    List.Chain' (fun a b => tsKey a ≤ tsKey b)
      (ohlcvToPoints [.arr [.num 5, .num 0, .num 0, .num 0, .num 7, .num 1],
                      .arr [.num 3, .num 0, .num 0, .num 0, .num 9, .num 1]]) ∧
    ∀ q ∈ ohlcvToPoints [.arr [.num 5, .num 0, .num 0, .num 0, .num 7, .num 1],
                         .arr [.num 3, .num 0, .num 0, .num 0, .num 9, .num 1]],
      q.timestamp.isSome := by
  constructor
  · exact fetchHistoricalData_sorted.1 (.response true (some (.obj
      [("data", .arr [.obj [("attributes", .obj [("address", .str "p")])]])])))
      (.response true (some (.obj [("data", .obj [("attributes", .obj [("ohlcv_list",
        .arr [.arr [.num 5, .num 0, .num 0, .num 0, .num 7, .num 1],
              .arr [.num 3, .num 0, .num 0, .num 0, .num 9, .num 1]])])])])))
      _ (by rfl)
  · exact fetchHistoricalData_sorted.2 _ (by decide)

/-! ## C1: all transport and schema failures are absorbed -/

theorem fetchCurrentPriceOkxBody_data_falsy (j : JVal)
    (h : jsFalsy (getFieldT j "data") = true) :
    fetchCurrentPriceOkxBody (.response true (some j)) = .error () := by
  rcases j with _ | b | q | s | elems | fs <;>
    simp [fetchCurrentPriceOkxBody, jsGet, bind, Except.bind, h]

theorem fetchCurrentPriceGeckoBody_attrs_falsy (j : JVal)
    (h : jsFalsy (jsGetOpt (getFieldT j "data") "attributes") = true) :
    fetchCurrentPriceGeckoBody (.response true (some j)) = .error () := by
  rcases j with _ | b | q | s | elems | fs <;>
    simp [fetchCurrentPriceGeckoBody, jsGet, bind, Except.bind, h]

theorem fetchHistoricalDataBody_no_pool (j : JVal) (hist : FetchResult)
    (h : jsFalsy (jsIndexOpt (getFieldT j "data") 0) = true) :
    fetchHistoricalDataBody (.response true (some j)) hist = .error () ∨
    fetchHistoricalDataBody (.response true (some j)) hist = .ok [] := by
  rcases j with _ | b | q | s | elems | fs
  · left; simp [fetchHistoricalDataBody, jsGet, bind, Except.bind]
  all_goals right; simp [fetchHistoricalDataBody, jsGet, bind, Except.bind, h]

theorem fetchHistoricalDataBody_hist_failure (pools hist : FetchResult)
    (H : hist = .netError ∨ (∃ b, hist = .response false b) ∨
      hist = .response true none ∨
      (∃ j, hist = .response true (some j) ∧
        ∀ items, ohlcvItems j ≠ .ok (some (.arr items)))) :
    fetchHistoricalDataBody pools hist = .error () ∨
    fetchHistoricalDataBody pools hist = .ok [] := by
  cases pools with
  | netError => left; rfl
  | response ok body =>
    cases ok with
    | false => right; rfl
    | true =>
      cases body with
      | none => left; rfl
      | some pj =>
        simp only [fetchHistoricalDataBody]
        cases hd : jsGet (some pj) "data" with
        | error u => left; simp [hd, bind, Except.bind]
        | ok dv =>
          simp only [hd, bind, Except.bind]
          by_cases hfp : jsFalsy (jsIndexOpt dv 0) = true
          · right; simp [hfp]
          · rw [if_neg hfp]
            cases ha : jsGet (jsIndexOpt dv 0) "attributes" with
            | error u => left; simp [ha]
            | ok av =>
              simp only [ha]
              cases hpa : jsGet av "address" with
              | error u => left; simp [hpa]
              | ok addr =>
                simp only [hpa]
                rcases H with rfl | ⟨b, rfl⟩ | rfl | ⟨j, rfl, hj⟩
                · left; simp
                · right; simp
                · left; simp
                · simp only [Bool.not_true, Bool.false_eq_true, if_false]
                  cases ho : ohlcvItems j with
                  | error u => left; simp [ho]
                  | ok ov =>
                    simp only [ho]
                    rcases ov with _ | ⟨_ | _ | _ | _ | items | _⟩ <;>
                      first
                      | (left; simp; done)
                      | exact absurd ho (by simpa using hj items)

/-- C1: neither gateway operation ever propagates an exception (the result of
the `catch`-wrapped computation is `ok` on every input), and on every
transport failure (`netError`), non-2xx status (`ok = false`), invalid JSON
body, or missing payload envelope, `fetchCurrentPrice` (both variants)
returns the all-zero `TokenStats` and `fetchHistoricalData` returns the
empty list — for failures of the pools request, of the OHLCV request, or of
the `ohlcv_list` extraction alike. -/
theorem fetchOps_absorb_failures :
    (∀ r : FetchResult, (fetchCurrentPriceOkx r).isOk ∧ (fetchCurrentPriceGecko r).isOk) ∧
    (∀ pools hist : FetchResult, (fetchHistoricalData pools hist).isOk) ∧
    (fetchCurrentPriceOkx .netError = .ok zeroStats ∧
      fetchCurrentPriceGecko .netError = .ok zeroStats) ∧
    (∀ b, fetchCurrentPriceOkx (.response false b) = .ok zeroStats ∧
      fetchCurrentPriceGecko (.response false b) = .ok zeroStats) ∧
    (fetchCurrentPriceOkx (.response true none) = .ok zeroStats ∧
      fetchCurrentPriceGecko (.response true none) = .ok zeroStats) ∧
    (∀ j : JVal, jsFalsy (getFieldT j "data") = true →
      fetchCurrentPriceOkx (.response true (some j)) = .ok zeroStats) ∧
    (∀ j : JVal, jsFalsy (jsGetOpt (getFieldT j "data") "attributes") = true →
      fetchCurrentPriceGecko (.response true (some j)) = .ok zeroStats) ∧
    (∀ hist, fetchHistoricalData .netError hist = .ok [] ∧
      (∀ b, fetchHistoricalData (.response false b) hist = .ok []) ∧
      fetchHistoricalData (.response true none) hist = .ok []) ∧
    (∀ (hist : FetchResult) (j : JVal), jsFalsy (jsIndexOpt (getFieldT j "data") 0) = true →
      fetchHistoricalData (.response true (some j)) hist = .ok []) ∧
    (∀ pools, fetchHistoricalData pools .netError = .ok [] ∧
      (∀ b, fetchHistoricalData pools (.response false b) = .ok []) ∧
      fetchHistoricalData pools (.response true none) = .ok []) ∧
    (∀ (pools : FetchResult) (j : JVal),
      (∀ items, ohlcvItems j ≠ .ok (some (.arr items))) →
      fetchHistoricalData pools (.response true (some j)) = .ok []) := by
  refine ⟨?_, ?_, ?_, ?_, ?_, ?_, ?_, ?_, ?_, ?_, ?_⟩
  · exact fun r => ⟨catchWith_isOk _ _, catchWith_isOk _ _⟩
  · exact fun pools hist => catchWith_isOk _ _
  · exact ⟨rfl, rfl⟩
  · exact fun b => ⟨rfl, rfl⟩
  · exact ⟨rfl, rfl⟩
  · intro j h
    exact catchWith_eq_ok_default _ _ (Or.inl (fetchCurrentPriceOkxBody_data_falsy j h))
  · intro j h
    exact catchWith_eq_ok_default _ _ (Or.inl (fetchCurrentPriceGeckoBody_attrs_falsy j h))
  · exact fun hist => ⟨rfl, fun b => rfl, rfl⟩
  · intro hist j h
    exact catchWith_eq_ok_default _ _ (fetchHistoricalDataBody_no_pool j hist h)
  · intro pools
    refine ⟨?_, fun b => ?_, ?_⟩ <;>
      exact catchWith_eq_ok_default _ _
        (fetchHistoricalDataBody_hist_failure pools _ (by simp))
  · intro pools j hj
    exact catchWith_eq_ok_default _ _
      (fetchHistoricalDataBody_hist_failure pools _ (by
        right; right; right; exact ⟨j, rfl, hj⟩))

/-- Witness for C1: concrete missing-envelope payloads for every
hypothesis-bearing conjunct. -/
theorem fetchOps_absorb_failures_witness :
    fetchCurrentPriceOkx (.response true (some (.obj []))) = .ok zeroStats ∧
    fetchCurrentPriceGecko (.response true (some (.obj []))) = .ok zeroStats ∧
    fetchHistoricalData (.response true (some (.obj []))) .netError = .ok [] ∧
    fetchHistoricalData
      (.response true (some (.obj
        [("data", .arr [.obj [("attributes", .obj [("address", .str "p")])]])])))
      (.response true (some .null)) = .ok [] := by
  obtain ⟨h1, h2, h3, h4, h5, h6, h7, h8, h9, h10, h11⟩ := fetchOps_absorb_failures
  refine ⟨h6 (.obj []) (by rfl), h7 (.obj []) (by rfl), h9 .netError (.obj []) (by rfl), ?_⟩
  refine h11 _ .null ?_
  intro items hcontra
  simp [ohlcvItems, jsGet, bind, Except.bind] at hcontra
